import Mathlib

set_option linter.unusedVariables false

/-!
Shallow embedding of the PurpleSec/logx logging core, together with proofs
checking the natural-language specification against the code.

The embedding covers:
* the severity model (`Level`, `Level.String`, `Normal`, `NormalUint`) from
  `log.go` / the flag and level block of the standalone logger file;
* the line formatter `logger.Output` (with its hand-rolled `itoa`) from the
  standalone logger file;
* the severity gate `stream.Log` and the `Panic*` family from `v2/stream.go`;
* variadic option resolution (`Writer`, `Console`, `File`) from `v2/stream.go`
  together with `option.go`;
* the composite dispatcher `Multi` from `multiple.go`;
* the no-op sentinel from `nop.go`.

Go machine integers: `Level` is `uint8`; all level values handled are below
256 and no arithmetic overflows, so levels are embedded as `Nat`.
`settingFlags` is `int8` and is embedded as `Int` with an explicit wrap into
`[-128, 127]` at the single conversion point (`Flags`).

External collaborators (the Go standard library) are modelled explicitly and
minimally: `fmt.Sprint`/`Sprintln`/`Sprintf` act on an argument vector that
the embedding abstracts as one pre-rendered string, `os.OpenFile` is modelled
by its effect of the flag bits `O_TRUNC`/`O_APPEND` on the file content, and
`runtime.Caller`/`time.Now` become explicit parameters of the formatter.
-/

namespace Logx

/-! ## Severity model (`log.go`) -/

/- Level is an alias of a byte (`type Level uint8`); levels are embedded as
plain `Nat`, with all values produced by the code below 256. -/

def Trace : Nat := 0
def Debug : Nat := 1
def Info : Nat := 2
def Warning : Nat := 3
def Error : Nat := 4
def Fatal : Nat := 5
def Panic : Nat := 6
def Print : Nat := 7
def invalidLevel : Nat := 8

/-- Embedding of `Level.String` from `log.go`: the `switch` over the seven
named levels, with the `"INVAL"` default for every other value. -/
def levelString (l : Nat) : String :=
  if l = Trace then "TRACE"
  else if l = Debug then "DEBUG"
  else if l = Info then " INFO"
  else if l = Warning then " WARN"
  else if l = Error then "ERROR"
  else if l = Fatal then "FATAL"
  else if l = Panic then "PANIC"
  else "INVAL"

/-- Embedding of `Normal` from `log.go`: clamp a signed request into the valid
level range, substituting the supplied default when out of range. -/
def Normal (req : Int) (normal : Nat) : Nat :=
  if req < 0 then normal
  else if req > (Panic : Nat) then normal
  else req.toNat

/-- Embedding of `NormalUint` from `log.go`: unsigned variant of `Normal`. -/
def NormalUint (req : Nat) (normal : Nat) : Nat :=
  if req > Panic then normal
  else req


/-! ## Format flags (uint8 bitmask, standalone logger file) -/

def FlagDate : Nat := 1
def FlagTime : Nat := 2
def FlagMicroseconds : Nat := 4
def FlagFileLong : Nat := 8
def FlagFileShort : Nat := 16
def FlagTimeUTC : Nat := 32

/-- FlagStandard is `FlagDate | FlagTime`, the flags of the default logger. -/
def FlagStandard : Nat := FlagDate ||| FlagTime

/-- DefaultFlags from `option.go`: the flag value used when no flags option is
supplied (`var DefaultFlags = FlagStandard`). -/
def DefaultFlags : Nat := FlagStandard

/-! ## Models of the Go standard library pieces the code delegates to.

The variadic argument vector `v ...interface{}` is abstracted as a single
pre-rendered string throughout; `fmt` applied to it is modelled below. -/

/-- Model of `fmt.Sprint(v...)`: the pre-rendered argument string itself. -/
def fmtSprint (v : String) : String := v

/-- Model of `fmt.Sprintln(v...)`: the rendered arguments followed by a
newline. -/
def fmtSprintln (v : String) : String := v ++ "\n"

/-- Model of `fmt.Sprintf(m, v...)`: percent-verb substitution is external to
this repository, so the rendering is abstracted as the pair of template and
rendered arguments, committed to one canonical string. No theorem below
depends on the internal shape of this rendering, only on which template and
arguments were handed to it. -/
def fmtSprintf (m v : String) : String := m ++ v

/-! ## The hand-rolled `itoa` of the standalone logger file.

The Go loop peels least-significant digits of `i` while `i >= 10 || w > 1`,
so it zero-pads to a minimum width `w` and renders minimal digits when
`w <= 1` (the file:line path passes `w = -1`). The loop is embedded with an
explicit fuel argument so that it is structurally recursive and reduces
inside the kernel; `itoa` instantiates the fuel with a bound that the
lemmas below prove sufficient. -/

def itoaGo (fuel : Nat) (i : Nat) (w : Int) : List Char :=
  match fuel with
  | 0 => [Nat.digitChar i]
  | fuel + 1 =>
    if 10 <= i ∨ 1 < w then itoaGo fuel (i / 10) (w - 1) ++ [Nat.digitChar (i % 10)]
    else [Nat.digitChar i]

/-- Embedding of `itoa` from the standalone logger file (result as the list of
digit characters it copies into the shared buffer). -/
def itoaL (i : Nat) (w : Int) : List Char := itoaGo (i + w.toNat) i w

def itoaStr (i : Nat) (w : Int) : String := String.mk (itoaL i w)

/-! ## Specification-side decimal rendering.

These definitions follow the words of the specification (zero-padded decimal
fields such as `YYYY/MM/DD`), independently of the `itoa` loop; the lemmas
relate the two. -/

/-- Decimal digits of `n`, most significant first (fuel-indexed core). -/
def decDigitsGo (fuel : Nat) (n : Nat) : List Char :=
  match fuel with
  | 0 => [Nat.digitChar n]
  | fuel + 1 =>
    if n < 10 then [Nat.digitChar n]
    else decDigitsGo fuel (n / 10) ++ [Nat.digitChar (n % 10)]

def decDigits (n : Nat) : List Char := decDigitsGo n n

/-- Decimal rendering of `n` left-padded with zeros to width `w`. -/
def padZeroL (w n : Nat) : List Char :=
  List.replicate (w - (decDigits n).length) '0' ++ decDigits n

def padZero (w n : Nat) : String := String.mk (padZeroL w n)

/-! ## Line formatter `logger.Output` (standalone logger file) -/

/-- Calendar instant as handed over by `time.Now()` / `t.UTC()`; the clock
itself is external, so the formatter receives both readings as arguments. -/
structure DateTime where
  year : Nat
  month : Nat
  day : Nat
  hour : Nat
  minute : Nat
  sec : Nat
  nsec : Nat
deriving DecidableEq

/-- Index of the last '/' at a position greater than zero, mirroring the
shortening loop `for i := len(f)-1; i > 0; i--` of `logger.Output`. -/
def lastSlashIdx (l : List Char) : Option Nat :=
  (List.range l.length).foldl
    (fun acc i => if 0 < i ∧ l[i]? = some '/' then some i else acc) none

/-- Short-file reduction of `logger.Output`: keep everything after the last
'/' found at index greater than zero, otherwise the whole path. -/
def shortFile (s : String) : String :=
  match lastSlashIdx s.data with
  | some i => String.mk (s.data.drop (i + 1))
  | none => s

/-- Header assembly of `logger.Output` (the date/time block written into the
stack buffer `b`): the external clock readings are arguments, and the flag
`FlagTimeUTC` selects between them exactly as `t = t.UTC()` does. -/
def outHeader (f : Nat) (tLoc tUtc : DateTime) : String :=
  let t := if f &&& FlagTimeUTC ≠ 0 then tUtc else tLoc
  if f &&& (FlagDate ||| FlagTimeUTC ||| FlagTime ||| FlagMicroseconds) ≠ 0 then
    (if f &&& FlagDate ≠ 0 then
      itoaStr t.year 4 ++ "/" ++ itoaStr t.month 2 ++ "/" ++ itoaStr t.day 2 ++ " "
    else "") ++
    (if f &&& (FlagTime ||| FlagMicroseconds) ≠ 0 then
      itoaStr t.hour 2 ++ ":" ++ itoaStr t.minute 2 ++ ":" ++ itoaStr t.sec 2 ++
        (if f &&& FlagMicroseconds ≠ 0 then "." ++ itoaStr (t.nsec / 1000) 6 else "") ++ " "
    else "")
  else ""

/-- File/line block of `logger.Output`: the (possibly shortened) file name,
a colon, the line number via `itoa(&b, 0, p, -1)`, and the trailing space
byte `b[c] = ' '`. `caller = none` models a failed `runtime.Caller` lookup
(`f, p = "??", 0`). -/
def outFilePart (f : Nat) (caller : Option (String × Nat)) : String :=
  if f &&& (FlagFileLong ||| FlagFileShort) ≠ 0 then
    (if f &&& FlagFileShort ≠ 0
      then shortFile (match caller with | some c => c.1 | none => "??")
      else (match caller with | some c => c.1 | none => "??")) ++ ":" ++
      itoaStr (match caller with | some c => c.2 | none => 0) (-1) ++ " "
  else ""

/-- Embedding of `logger.Output` from the standalone logger file.

`d` (the requested caller depth) only feeds the external `runtime.Caller`
lookup, whose resolved result is passed in as `caller`. The returned string
is the single byte slice handed to `l.w.Write`: header, file:line block,
prefix followed by one space when non-empty, the message `s`, and a final
newline appended exactly when `s` is empty or does not already end in one
(`len(s) == 0 || o[n-1] != '\n'`). -/
def loggerOutput (f : Nat) (pfx : String) (caller : Option (String × Nat))
    (tLoc tUtc : DateTime) (s : String) : String :=
  outHeader f tLoc tUtc ++ outFilePart f caller ++
    (if 0 < pfx.length then pfx ++ " " else "") ++ s ++
    (if s.length = 0 ∨ s.back ≠ '\n' then "\n" else "")

/-! ## Specification-side line layout.

`claimedOutputLine` follows the specification text word for word, with the
file field written as `file:line: ` (trailing colon). `amendedOutputLine`
is the amended layout: identical except that the line number is followed by
a single space and no colon, which is what the code emits. -/

def dateField (f : Nat) (t : DateTime) : String :=
  if f &&& FlagDate ≠ 0 then
    padZero 4 t.year ++ "/" ++ padZero 2 t.month ++ "/" ++ padZero 2 t.day ++ " "
  else ""

def timeField (f : Nat) (t : DateTime) : String :=
  if f &&& (FlagTime ||| FlagMicroseconds) ≠ 0 then
    padZero 2 t.hour ++ ":" ++ padZero 2 t.minute ++ ":" ++ padZero 2 t.sec ++
      (if f &&& FlagMicroseconds ≠ 0 then "." ++ padZero 6 (t.nsec / 1000) else "") ++ " "
  else ""

def claimedFileField (f : Nat) (caller : Option (String × Nat)) : String :=
  if f &&& (FlagFileLong ||| FlagFileShort) ≠ 0 then
    (if f &&& FlagFileShort ≠ 0
      then shortFile (match caller with | some c => c.1 | none => "??")
      else (match caller with | some c => c.1 | none => "??")) ++ ":" ++
      padZero 0 (match caller with | some c => c.2 | none => 0) ++ ": "
  else ""

def amendedFileField (f : Nat) (caller : Option (String × Nat)) : String :=
  if f &&& (FlagFileLong ||| FlagFileShort) ≠ 0 then
    (if f &&& FlagFileShort ≠ 0
      then shortFile (match caller with | some c => c.1 | none => "??")
      else (match caller with | some c => c.1 | none => "??")) ++ ":" ++
      padZero 0 (match caller with | some c => c.2 | none => 0) ++ " "
  else ""

def pfxField (pfx : String) : String := if 0 < pfx.length then pfx ++ " " else ""

def newlineIfMissing (s : String) : String :=
  if s.length = 0 ∨ s.back ≠ '\n' then "\n" else ""

/-- Line layout exactly as the specification states it (fields in order,
the file field terminated by a colon). -/
def claimedOutputLine (f : Nat) (pfx : String) (caller : Option (String × Nat))
    (tLoc tUtc : DateTime) (s : String) : String :=
  let t := if f &&& FlagTimeUTC ≠ 0 then tUtc else tLoc
  dateField f t ++ timeField f t ++ claimedFileField f caller ++ pfxField pfx ++
    s ++ newlineIfMissing s

/-- Line layout as amended: the file field ends in a space after the line
number instead of a colon. -/
def amendedOutputLine (f : Nat) (pfx : String) (caller : Option (String × Nat))
    (tLoc tUtc : DateTime) (s : String) : String :=
  let t := if f &&& FlagTimeUTC ≠ 0 then tUtc else tLoc
  dateField f t ++ timeField f t ++ amendedFileField f caller ++ pfxField pfx ++
    s ++ newlineIfMissing s

/-! ## The stream backend of `v2/stream.go`.

A `stream` holds a threshold `l` and a print level `p` (here the arguments
`T` and `P`); the underlying `log.Logger` performs the write. `Log` returns
the pair (caller depth, line) handed to `Output`, or `none` when the
severity gate rejects the message. -/

def streamLog (T P : Nat) (l : Nat) (c : Nat) (m v : String) : Option (Nat × String) :=
  if l = Print then
    if T > P then none
    else if m.length = 0 then
      some (3 + c, "[" ++ levelString P ++ "]: " ++ fmtSprint v ++ "\n")
    else
      some (3 + c, "[" ++ levelString P ++ "]: " ++ fmtSprintf m v ++ "\n")
  else
    if T > l then none
    else if m.length = 0 then
      some (3 + c, "[" ++ levelString l ++ "]: " ++ fmtSprint v ++ "\n")
    else
      some (3 + c, "[" ++ levelString l ++ "]: " ++ fmtSprintf m v ++ "\n")

/-- Embedding of `stream.Panic`: log at the Panic level, then raise a Go
panic whose value is `fmt.Sprintln(v...)`. The pair is (write handed to
`Output` if the gate passes, panic value); the `fatalExits` argument models
the global toggle, which this function never reads. -/
def streamPanic (T P : Nat) (fatalExits : Bool) (v : String) :
    Option (Nat × String) × String :=
  (streamLog T P Panic 0 "" v, fmtSprintln v)

/-- Embedding of `stream.Panicln` (same body as `stream.Panic` in the
source). -/
def streamPanicln (T P : Nat) (fatalExits : Bool) (v : String) :
    Option (Nat × String) × String :=
  (streamLog T P Panic 0 "" v, fmtSprintln v)

/-- Embedding of `stream.Panicf`: log at the Panic level with the template,
then panic with `fmt.Sprintf(m, v...)`. -/
def streamPanicf (T P : Nat) (fatalExits : Bool) (m v : String) :
    Option (Nat × String) × String :=
  (streamLog T P Panic 0 m v, fmtSprintf m v)

/-! ## Options (`option.go`) and the construction surface of `v2/stream.go`.

An `Option` value is one of the five setting carriers; `none` in the lists
below models a nil interface entry. `settingFlags` is Go `int8`, so the
public `Flags(f int)` constructor wraps its argument into `[-128, 127]`. -/

inductive GoOpt where
  /-- A bare `Level` value used directly as an option (its `setting()` is
  `setLevel`). -/
  | level (l : Nat)
  /-- A `settingFlags` value (Go `int8`). -/
  | flags (f : Int)
  /-- A `settingPrint` value, as created by `PrintLevel`. -/
  | printL (l : Nat)
  /-- A `settingAppend` value. -/
  | append (b : Bool)
  /-- A `settingPrefix` value. -/
  | pfx (p : String)
deriving DecidableEq

def setLevel : Nat := 0
def setFlags : Nat := 1
def setPrint : Nat := 2
def setAppend : Nat := 3
def setPfx : Nat := 4

/-- The `setting()` method: the discriminant each carrier type reports. -/
def optSetting : GoOpt → Nat
  | .level _ => setLevel
  | .flags _ => setFlags
  | .printL _ => setPrint
  | .append _ => setAppend
  | .pfx _ => setPfx

/-- Go type assertion `o.(Level)`: yields the carried value when the dynamic
type is `Level`, and the zero value 0 otherwise (the two-result form
`l, _ = o.(Level)` discards the failure flag). -/
def assertLevel : GoOpt → Nat
  | .level l => l
  | _ => 0

/-- Go type assertion `o.(settingFlags)` with discarded failure flag. -/
def assertFlags : GoOpt → Int
  | .flags f => f
  | _ => 0

/-- Go type assertion `o.(settingAppend)` with discarded failure flag. -/
def assertAppend : GoOpt → Bool
  | .append b => b
  | _ => false

/-- Go type assertion `o.(settingPrefix)` with discarded failure flag. -/
def assertPfx : GoOpt → String
  | .pfx p => p
  | _ => ""

/-- Go conversion `int8(f)`: two's-complement truncation into `[-128, 127]`. -/
def wrapInt8 (f : Int) : Int := (f + 128) % 256 - 128

/-- The public `Flags` option constructor (`settingFlags(f)` on an `int`). -/
def Flags (f : Int) : GoOpt := .flags (wrapInt8 f)

/-- The public `PrintLevel` option constructor (`settingPrint(l)`). -/
def PrintLevel (l : Nat) : GoOpt := .printL l

/-- The public `Prefix` option constructor (`settingPrefix(p)`). -/
def PrefixOpt (p : String) : GoOpt := .pfx p

/-- The public `Append` option constant (`settingAppend(true)`). -/
def AppendOpt : GoOpt := .append true

/-- Resolved configuration of a `stream`: threshold `l`, print level `p`,
flags and prefix handed to `log.New`. -/
structure StreamConf where
  l : Nat
  p : Nat
  flags : Int
  pfx : String
deriving DecidableEq

/-- Accumulator of the option loop in `Writer` (initial values
`f = -1`, empty prefix, `l = k = invalidLevel`). -/
structure WAcc where
  f : Int
  p : String
  l : Nat
  k : Nat
deriving DecidableEq

/-- One iteration of the option loop of `Writer`: nil entries are skipped,
otherwise the switch on `setting()` runs the matching type assertion.
`Writer` has no `setAppend` case. -/
def writerStep (acc : WAcc) (o : Option GoOpt) : WAcc :=
  match o with
  | none => acc
  | some g =>
    if optSetting g = setLevel then { acc with l := assertLevel g }
    else if optSetting g = setFlags then { acc with f := assertFlags g }
    else if optSetting g = setPrint then { acc with k := assertLevel g }
    else if optSetting g = setPfx then { acc with p := assertPfx g }
    else acc

/-- Embedding of `Writer` from `v2/stream.go`: resolve the option list, then
substitute the defaults for the never-set sentinels. -/
def Writer (o : List (Option GoOpt)) : StreamConf :=
  let a := o.foldl writerStep { f := -1, p := "", l := invalidLevel, k := invalidLevel }
  { flags := if a.f = -1 then Int.ofNat DefaultFlags else a.f
    pfx := a.p
    l := if a.l = invalidLevel then Warning else a.l
    p := if a.k = invalidLevel then Info else a.k }

/-- Embedding of `Console`: `Writer` applied to the default console stream. -/
def Console (o : List (Option GoOpt)) : StreamConf := Writer o

/-! File-open flag bits of the Go `os` package on Linux. -/

def O_WRONLY : Nat := 1
def O_RDWR : Nat := 2
def O_CREATE : Nat := 64
def O_TRUNC : Nat := 512
def O_APPEND : Nat := 1024

/-- Accumulator of the option loop in `File` (adds the append flag). -/
structure FAcc where
  f : Int
  p : String
  a : Bool
  l : Nat
  k : Nat
deriving DecidableEq

/-- One iteration of the option loop of `File` (the `Writer` switch plus the
`setAppend` case). -/
def fileStep (acc : FAcc) (o : Option GoOpt) : FAcc :=
  match o with
  | none => acc
  | some g =>
    if optSetting g = setLevel then { acc with l := assertLevel g }
    else if optSetting g = setFlags then { acc with f := assertFlags g }
    else if optSetting g = setPrint then { acc with k := assertLevel g }
    else if optSetting g = setAppend then { acc with a := assertAppend g }
    else if optSetting g = setPfx then { acc with p := assertPfx g }
    else acc

/-- Embedding of `File` from `v2/stream.go`: the resolved configuration, the
append flag, and the flag word handed to `os.OpenFile`
(`O_WRONLY | O_CREATE`, plus `O_APPEND` when the append option was set). -/
def File (o : List (Option GoOpt)) : StreamConf × Bool × Nat :=
  let a := o.foldl fileStep
    { f := -1, p := "", a := false, l := invalidLevel, k := invalidLevel }
  ({ flags := if a.f = -1 then Int.ofNat DefaultFlags else a.f
     pfx := a.p
     l := if a.l = invalidLevel then Warning else a.l
     p := if a.k = invalidLevel then Info else a.k },
   a.a,
   (O_WRONLY ||| O_CREATE) ||| (if a.a then O_APPEND else 0))

/-- Flag word computed by the legacy `NewFileOptions` of `logx/logx.go`:
`os.O_RDWR | os.O_CREATE`, plus `os.O_TRUNC` exactly when `append` is true. -/
def NewFileOptionsFlags (append : Bool) : Nat :=
  (O_RDWR ||| O_CREATE) ||| (if append then O_TRUNC else 0)

/-! Model of `os.OpenFile` plus a subsequent write, by the POSIX effect of
the `O_TRUNC`/`O_APPEND` bits on the file content (bytes as characters). -/

/-- Content visible right after opening: truncated to empty iff `O_TRUNC` is
in the flag word. -/
def openContent (flags : Nat) (existing : String) : String :=
  if flags &&& O_TRUNC ≠ 0 then "" else existing

/-- Content after opening onto `existing` bytes and writing `w` once: with
`O_APPEND` the write lands at the end; otherwise it lands at offset 0,
overwriting in place and leaving any longer tail untouched. -/
def contentAfterWrite (flags : Nat) (existing w : String) : String :=
  let c := openContent flags existing
  if flags &&& O_APPEND ≠ 0 then c ++ w
  else w ++ String.mk (c.data.drop w.length)

/-! ## The composite dispatcher `Multi` (`multiple.go`) and the no-op
sentinel (`nop.go`).

A member of the composite is abstracted by an identity and whether its
dynamic type satisfies the `LogWriter` interface (`lw`). A run of a `Multi`
method is the ordered list of calls it performs: `Action.logw` is a call to
the member's `Log(level, depth, template, args)`, the named actions are
calls to its ordinary severity methods, and `Event.exit` is `os.Exit`.
Functions that end in a Go panic return the panic value alongside. -/

structure Member where
  id : Nat
  lw : Bool
deriving DecidableEq

inductive Action where
  | logw (l : Nat) (depth : Nat) (tmpl : String) (args : String)
  | traceM (tmpl args : String)
  | debugM (tmpl args : String)
  | infoM (tmpl args : String)
  | warningM (tmpl args : String)
  | errorM (tmpl args : String)
  | printM (args : String)
  | printlnM (args : String)
  | printfM (tmpl args : String)
deriving DecidableEq

inductive Event where
  | call (id : Nat) (a : Action)
  | exit (code : Nat)
deriving DecidableEq

/-- Loop of `Multi.Trace`: `Log(Trace, 1, s, v...)` for `LogWriter` members,
plain `Trace(s, v...)` otherwise. -/
def multiTrace : List Member → String → String → List Event
  | [], _, _ => []
  | x :: xs, s, v =>
    (if x.lw then Event.call x.id (Action.logw Trace 1 s v)
     else Event.call x.id (Action.traceM s v)) :: multiTrace xs s v

/-- Loop of `Multi.Debug`. -/
def multiDebug : List Member → String → String → List Event
  | [], _, _ => []
  | x :: xs, s, v =>
    (if x.lw then Event.call x.id (Action.logw Debug 1 s v)
     else Event.call x.id (Action.debugM s v)) :: multiDebug xs s v

/-- Loop of `Multi.Info`. -/
def multiInfo : List Member → String → String → List Event
  | [], _, _ => []
  | x :: xs, s, v =>
    (if x.lw then Event.call x.id (Action.logw Info 1 s v)
     else Event.call x.id (Action.infoM s v)) :: multiInfo xs s v

/-- Loop of `Multi.Warning`. -/
def multiWarning : List Member → String → String → List Event
  | [], _, _ => []
  | x :: xs, s, v =>
    (if x.lw then Event.call x.id (Action.logw Warning 1 s v)
     else Event.call x.id (Action.warningM s v)) :: multiWarning xs s v

/-- Loop of `Multi.Error`. -/
def multiError : List Member → String → String → List Event
  | [], _, _ => []
  | x :: xs, s, v =>
    (if x.lw then Event.call x.id (Action.logw Error 1 s v)
     else Event.call x.id (Action.errorM s v)) :: multiError xs s v

/-- Loop of `Multi.Print`: `Log(Print, 1, "", v...)` for `LogWriter` members,
plain `Print(v...)` otherwise. -/
def multiPrint : List Member → String → List Event
  | [], _ => []
  | x :: xs, v =>
    (if x.lw then Event.call x.id (Action.logw Print 1 "" v)
     else Event.call x.id (Action.printM v)) :: multiPrint xs v

/-- Loop of `Multi.Println`. -/
def multiPrintln : List Member → String → List Event
  | [], _ => []
  | x :: xs, v =>
    (if x.lw then Event.call x.id (Action.logw Print 1 "" v)
     else Event.call x.id (Action.printlnM v)) :: multiPrintln xs v

/-- Loop of `Multi.Printf`. -/
def multiPrintf : List Member → String → String → List Event
  | [], _, _ => []
  | x :: xs, s, v =>
    (if x.lw then Event.call x.id (Action.logw Print 1 s v)
     else Event.call x.id (Action.printfM s v)) :: multiPrintf xs s v

/-- Member loop of `Multi.Fatal`: `LogWriter` members get
`Log(Fatal, 1, s, v...)`; the others are deliberately asked to log via
`Error(s, v...)` so that none of them exits the process mid-loop. -/
def multiFatalLoop : List Member → String → String → List Event
  | [], _, _ => []
  | x :: xs, s, v =>
    (if x.lw then Event.call x.id (Action.logw Fatal 1 s v)
     else Event.call x.id (Action.errorM s v)) :: multiFatalLoop xs s v

/-- Embedding of `Multi.Fatal`: run the member loop, then `os.Exit(1)` iff
the global `FatalExits` toggle is set. -/
def multiFatal (mem : List Member) (fatalExits : Bool) (s v : String) : List Event :=
  multiFatalLoop mem s v ++ (if fatalExits then [Event.exit 1] else [])

/-- Member loop of `Multi.Panic`/`Multi.Panicln`: `LogWriter` members get
`Log(Panic, 1, "", v...)`; the others log via `Error("", v...)`. -/
def multiPanicLoop : List Member → String → List Event
  | [], _ => []
  | x :: xs, v =>
    (if x.lw then Event.call x.id (Action.logw Panic 1 "" v)
     else Event.call x.id (Action.errorM "" v)) :: multiPanicLoop xs v

/-- Embedding of `Multi.Panic`: run the member loop, then panic with
`fmt.Sprint(v...)`; the `fatalExits` argument is the global toggle, which
this function never reads. -/
def multiPanic (mem : List Member) (fatalExits : Bool) (v : String) :
    List Event × String :=
  (multiPanicLoop mem v, fmtSprint v)

/-- Embedding of `Multi.Panicln` (same member loop and panic value as
`Multi.Panic` in the source). -/
def multiPanicln (mem : List Member) (fatalExits : Bool) (v : String) :
    List Event × String :=
  (multiPanicLoop mem v, fmtSprint v)

/-- Member loop of `Multi.Panicf` (template `s` forwarded). -/
def multiPanicfLoop : List Member → String → String → List Event
  | [], _, _ => []
  | x :: xs, s, v =>
    (if x.lw then Event.call x.id (Action.logw Panic 1 s v)
     else Event.call x.id (Action.errorM s v)) :: multiPanicfLoop xs s v

/-- Embedding of `Multi.Panicf`: member loop, then panic with
`fmt.Sprintf(s, v...)`. -/
def multiPanicf (mem : List Member) (fatalExits : Bool) (s v : String) :
    List Event × String :=
  (multiPanicfLoop mem s v, fmtSprintf s v)

/-! The no-op sentinel `nop` of `nop.go`: output is suppressed, control-flow
semantics are kept. -/

/-- Embedding of `nop.Panic`: no output, panic with `fmt.Sprint(v...)`. -/
def nopPanic (fatalExits : Bool) (v : String) : String := fmtSprint v

/-- Embedding of `nop.Panicln` (the source also panics with
`fmt.Sprint(v...)` here). -/
def nopPanicln (fatalExits : Bool) (v : String) : String := fmtSprint v

/-- Embedding of `nop.Panicf`: panic with `fmt.Sprintf(m, v...)`. -/
def nopPanicf (fatalExits : Bool) (m v : String) : String := fmtSprintf m v

/-- Embedding of `nop.Fatal`: no output, `os.Exit(1)` iff the toggle is
set. -/
def nopFatal (fatalExits : Bool) : List Event :=
  if fatalExits then [Event.exit 1] else []

/-- Does an option-list entry carry a threshold level (a bare `Level`)? -/
def isLevelOpt : Option GoOpt → Bool
  | some (.level _) => true
  | _ => false

/-- Does an option-list entry carry a print level (a `settingPrint`)? -/
def isPrintOpt : Option GoOpt → Bool
  | some (.printL _) => true
  | _ => false

end Logx

/-! # Supporting lemmas -/

theorem Logx.multiFatalLoop_eq_map (mem : List Logx.Member) (s v : String) :
    Logx.multiFatalLoop mem s v = mem.map (fun x =>
      if x.lw then Logx.Event.call x.id (Logx.Action.logw Logx.Fatal 1 s v)
      else Logx.Event.call x.id (Logx.Action.errorM s v)) := by
  induction mem with
  | nil => rfl
  | cons x xs ih => simp [Logx.multiFatalLoop, ih]

theorem Logx.multiPanicLoop_eq_map (mem : List Logx.Member) (v : String) :
    Logx.multiPanicLoop mem v = mem.map (fun x =>
      if x.lw then Logx.Event.call x.id (Logx.Action.logw Logx.Panic 1 "" v)
      else Logx.Event.call x.id (Logx.Action.errorM "" v)) := by
  induction mem with
  | nil => rfl
  | cons x xs ih => simp [Logx.multiPanicLoop, ih]

theorem Logx.multiPanicfLoop_eq_map (mem : List Logx.Member) (s v : String) :
    Logx.multiPanicfLoop mem s v = mem.map (fun x =>
      if x.lw then Logx.Event.call x.id (Logx.Action.logw Logx.Panic 1 s v)
      else Logx.Event.call x.id (Logx.Action.errorM s v)) := by
  induction mem with
  | nil => rfl
  | cons x xs ih => simp [Logx.multiPanicfLoop, ih]

/-! # Claim theorems -/

/-- C1: on a stream-backed logger with threshold `T`, a logging call at any
fixed severity `L` among Trace..Panic reaches the underlying writer if and
only if `L >= T` numerically (the equal boundary included); when `L < T` the
call returns without writing. -/
theorem Logx.stream_log_gate (T P L c : Nat) (m v : String) (h : L ≤ Logx.Panic) :
    (Logx.streamLog T P L c m v).isSome ↔ T ≤ L := by
  have hL : L ≠ Logx.Print := by
    unfold Logx.Print
    unfold Logx.Panic at h
    omega
  unfold Logx.streamLog
  rw [if_neg hL]
  by_cases hT : T > L
  · rw [if_pos hT]
    simp
    omega
  · rw [if_neg hT]
    split <;> simp <;> omega

/-- Witness for C1 at the equal boundary: severity Warning (3) against
threshold Warning (3) produces output. -/
theorem Logx.stream_log_gate_witness :
    3 ≤ Logx.Panic ∧ (Logx.streamLog 3 2 3 0 "t" "a").isSome :=
  ⟨by decide, (Logx.stream_log_gate 3 2 3 0 "t" "a" (by decide)).mpr (by decide)⟩

/-- C2: `Multi.Fatal` invokes every member of the composite exactly once, in
sequence order, before performing any exit — `LogWriter` members via
`Log(Fatal, 1, template, args)`, the others via their non-exiting `Error`
method — and only after the whole sequence does it call `os.Exit(1)`, which
happens if and only if the global `FatalExits` toggle is true. -/
theorem Logx.multi_fatal_all_members_before_exit
    (mem : List Logx.Member) (fe : Bool) (s v : String) :
    (Logx.multiFatal mem fe s v).take mem.length = mem.map (fun x =>
      if x.lw then Logx.Event.call x.id (Logx.Action.logw Logx.Fatal 1 s v)
      else Logx.Event.call x.id (Logx.Action.errorM s v)) ∧
    (Logx.multiFatal mem fe s v).drop mem.length
      = (if fe then [Logx.Event.exit 1] else []) ∧
    (Logx.Event.exit 1 ∈ Logx.multiFatal mem fe s v ↔ fe = true) := by
  have hmap := Logx.multiFatalLoop_eq_map mem s v
  have hlen : (Logx.multiFatalLoop mem s v).length = mem.length := by
    rw [hmap]; simp
  unfold Logx.multiFatal
  refine ⟨?_, ?_, ?_, ?_⟩
  · rw [← hlen, List.take_left, hmap]
  · rw [← hlen, List.drop_left]
  · intro hmem
    rcases List.mem_append.1 hmem with h1 | h2
    · rw [hmap] at h1
      rcases List.mem_map.1 h1 with ⟨x, _, hx⟩
      by_cases hlw : x.lw <;> simp [hlw] at hx
    · cases fe with
      | true => rfl
      | false => simp at h2
  · intro hfe
    subst hfe
    exact List.mem_append.2 (Or.inr (by simp))

/-- C6: every Panic-family call — on a stream logger, on the composite, and
on the no-op sentinel — ends in a Go panic carrying the fmt-formatted
arguments, for both values of the `FatalExits` toggle (none of these
functions reads it); on the composite, every member is written first, in
order (`LogWriter` members at the Panic level, the others via `Error`),
before the panic value is raised. -/
theorem Logx.panic_family_always_panics
    (T P : Nat) (fe : Bool) (m v : String) (mem : List Logx.Member) :
    (Logx.streamPanic T P fe v).2 = Logx.fmtSprintln v ∧
    (Logx.streamPanicln T P fe v).2 = Logx.fmtSprintln v ∧
    (Logx.streamPanicf T P fe m v).2 = Logx.fmtSprintf m v ∧
    (Logx.multiPanic mem fe v).2 = Logx.fmtSprint v ∧
    (Logx.multiPanicln mem fe v).2 = Logx.fmtSprint v ∧
    (Logx.multiPanicf mem fe m v).2 = Logx.fmtSprintf m v ∧
    Logx.nopPanic fe v = Logx.fmtSprint v ∧
    Logx.nopPanicln fe v = Logx.fmtSprint v ∧
    Logx.nopPanicf fe m v = Logx.fmtSprintf m v ∧
    (Logx.multiPanic mem fe v).1 = mem.map (fun x =>
      if x.lw then Logx.Event.call x.id (Logx.Action.logw Logx.Panic 1 "" v)
      else Logx.Event.call x.id (Logx.Action.errorM "" v)) ∧
    (Logx.multiPanicln mem fe v).1 = mem.map (fun x =>
      if x.lw then Logx.Event.call x.id (Logx.Action.logw Logx.Panic 1 "" v)
      else Logx.Event.call x.id (Logx.Action.errorM "" v)) ∧
    (Logx.multiPanicf mem fe m v).1 = mem.map (fun x =>
      if x.lw then Logx.Event.call x.id (Logx.Action.logw Logx.Panic 1 m v)
      else Logx.Event.call x.id (Logx.Action.errorM m v)) :=
  ⟨rfl, rfl, rfl, rfl, rfl, rfl, rfl, rfl, rfl,
   Logx.multiPanicLoop_eq_map mem v,
   Logx.multiPanicLoop_eq_map mem v,
   Logx.multiPanicfLoop_eq_map mem m v⟩

/-- C7: each severity-keyed call on the composite (Trace, Debug, Info,
Warning, Error, Print, Printf) visits the members in sequence order and
dispatches one call per member according to its capability: `LogWriter`
members receive `Log(level, 1, template, args)` with the extra stack depth
of 1, the others receive their plain named method with the original
arguments. -/
theorem Logx.multi_severity_dispatch (mem : List Logx.Member) (s v : String) :
    Logx.multiTrace mem s v = mem.map (fun x =>
      if x.lw then Logx.Event.call x.id (Logx.Action.logw Logx.Trace 1 s v)
      else Logx.Event.call x.id (Logx.Action.traceM s v)) ∧
    Logx.multiDebug mem s v = mem.map (fun x =>
      if x.lw then Logx.Event.call x.id (Logx.Action.logw Logx.Debug 1 s v)
      else Logx.Event.call x.id (Logx.Action.debugM s v)) ∧
    Logx.multiInfo mem s v = mem.map (fun x =>
      if x.lw then Logx.Event.call x.id (Logx.Action.logw Logx.Info 1 s v)
      else Logx.Event.call x.id (Logx.Action.infoM s v)) ∧
    Logx.multiWarning mem s v = mem.map (fun x =>
      if x.lw then Logx.Event.call x.id (Logx.Action.logw Logx.Warning 1 s v)
      else Logx.Event.call x.id (Logx.Action.warningM s v)) ∧
    Logx.multiError mem s v = mem.map (fun x =>
      if x.lw then Logx.Event.call x.id (Logx.Action.logw Logx.Error 1 s v)
      else Logx.Event.call x.id (Logx.Action.errorM s v)) ∧
    Logx.multiPrint mem v = mem.map (fun x =>
      if x.lw then Logx.Event.call x.id (Logx.Action.logw Logx.Print 1 "" v)
      else Logx.Event.call x.id (Logx.Action.printM v)) ∧
    Logx.multiPrintf mem s v = mem.map (fun x =>
      if x.lw then Logx.Event.call x.id (Logx.Action.logw Logx.Print 1 s v)
      else Logx.Event.call x.id (Logx.Action.printfM s v)) := by
  induction mem with
  | nil => exact ⟨rfl, rfl, rfl, rfl, rfl, rfl, rfl⟩
  | cons x xs ih =>
    refine ⟨?_, ?_, ?_, ?_, ?_, ?_, ?_⟩ <;>
      simp [Logx.multiTrace, Logx.multiDebug, Logx.multiInfo, Logx.multiWarning,
        Logx.multiError, Logx.multiPrint, Logx.multiPrintf,
        ih.1, ih.2.1, ih.2.2.1, ih.2.2.2.1, ih.2.2.2.2.1, ih.2.2.2.2.2.1,
        ih.2.2.2.2.2.2]

/-- C8: for every value of the byte-typed `Level`, `Level.String()` returns a
string of exactly 5 characters; the seven named levels map to their fixed
padded names, and every other value — including the `Print` (7) and invalid
(8) sentinels — renders as the fixed token `"INVAL"`. -/
theorem Logx.level_string_fixed_width (l : Nat) :
    (Logx.levelString l).length = 5 ∧
    (Logx.levelString Logx.Trace = "TRACE" ∧
     Logx.levelString Logx.Debug = "DEBUG" ∧
     Logx.levelString Logx.Info = " INFO" ∧
     Logx.levelString Logx.Warning = " WARN" ∧
     Logx.levelString Logx.Error = "ERROR" ∧
     Logx.levelString Logx.Fatal = "FATAL" ∧
     Logx.levelString Logx.Panic = "PANIC") ∧
    (Logx.Panic < l → Logx.levelString l = "INVAL") := by
  refine ⟨?_, by decide, ?_⟩
  · unfold Logx.levelString
    split <;> try decide
    split <;> try decide
    split <;> try decide
    split <;> try decide
    split <;> try decide
    split <;> try decide
    split <;> decide
  · intro h
    have h' : 6 < l := h
    unfold Logx.levelString Logx.Trace Logx.Debug Logx.Info Logx.Warning
      Logx.Error Logx.Fatal Logx.Panic
    repeat' split
    all_goals first | rfl | exact absurd h' (by omega)

/-- Witness for C8: the `Print` sentinel (7) is out of the named range and
renders as the 5-character token `"INVAL"`. -/
theorem Logx.level_string_fixed_width_witness :
    (Logx.levelString 7).length = 5 ∧ Logx.levelString 7 = "INVAL" :=
  ⟨(Logx.level_string_fixed_width 7).1,
   (Logx.level_string_fixed_width 7).2.2 (by decide)⟩

/-- C9: `Normal(req, default)` returns `Level(req)` exactly when
`0 ≤ req ≤ Panic` (= 6) and the supplied default otherwise (negative requests
and every request above 6, which includes the `Print` sentinel 7);
`NormalUint` behaves identically on unsigned inputs. -/
theorem Logx.normal_clamps (req : Int) (u : Nat) (normal : Nat) :
    (0 ≤ req → req ≤ 6 → Logx.Normal req normal = req.toNat) ∧
    (req < 0 → Logx.Normal req normal = normal) ∧
    (6 < req → Logx.Normal req normal = normal) ∧
    (u ≤ 6 → Logx.NormalUint u normal = u) ∧
    (6 < u → Logx.NormalUint u normal = normal) := by
  unfold Logx.Normal Logx.NormalUint Logx.Panic
  refine ⟨?_, ?_, ?_, ?_, ?_⟩ <;> intros <;> split <;> first
    | rfl
    | omega
    | (split <;> first | rfl | omega)

/-- Witness for C9: the `Print` sentinel value 7 is clamped to the supplied
default by both variants, and the boundary value 6 is passed through. -/
theorem Logx.normal_clamps_witness :
    Logx.Normal 7 2 = 2 ∧ Logx.NormalUint 7 2 = 2 ∧
    Logx.Normal 6 2 = 6 ∧ Logx.NormalUint 6 2 = 6 :=
  ⟨(Logx.normal_clamps 7 0 2).2.2.1 (by decide),
   (Logx.normal_clamps 0 7 2).2.2.2.2 (by decide),
   by have h := (Logx.normal_clamps 6 0 2).1 (by decide) (by decide)
      simpa using h,
   (Logx.normal_clamps 0 6 2).2.2.2.1 (by decide)⟩

/-- C4, the code evaluated at the failing input: the claim (and the doc
comment of `PrintLevel`) say the last print-level option in the list
determines the configured print level, but the `setPrint` arm of the
resolution switch runs the type assertion `o[i].(Level)` against a value of
dynamic type `settingPrint`, so the assertion fails and the print level
silently becomes the zero value Trace — `Writer(w, PrintLevel(Error))`
yields print level Trace, not Error. The other option kinds resolve as
claimed (shown for level last-wins and for the all-defaults case), and
`File` shares the same failing arm. -/
theorem Logx.writer_print_option_assertion_bug :
    (Logx.Writer [some (Logx.PrintLevel Logx.Error)]).p = Logx.Trace ∧
    Logx.Trace ≠ Logx.Error ∧
    (Logx.Writer [some (Logx.GoOpt.level Logx.Error),
      some (Logx.GoOpt.level Logx.Debug)]).l = Logx.Debug ∧
    (Logx.Writer [none, some (Logx.GoOpt.pfx "a"), some (Logx.GoOpt.pfx "b")]).pfx = "b" ∧
    (Logx.Writer []).l = Logx.Warning ∧
    (Logx.Writer []).p = Logx.Info ∧
    (Logx.Writer []).flags = Int.ofNat Logx.DefaultFlags ∧
    (Logx.Writer []).pfx = "" ∧
    (Logx.File []).2.1 = false ∧
    (Logx.File [some (Logx.PrintLevel Logx.Error)]).1.p = Logx.Trace := by
  decide

/-- C5, the code evaluated at the failing input: the claim (and the doc
comment of `File`) say a file-backed logger without the Append option
truncates pre-existing content, but `File` passes only
`O_WRONLY | O_CREATE` to `os.OpenFile` — no `O_TRUNC` — so pre-existing
bytes survive (a subsequent write lands at offset 0 and leaves the longer
tail in place: `"OLD DATA."` becomes `"xLD DATA."`, not `"x"`). With the
Append option the v2 code does append. The legacy `NewFileOptions` inverts
the claim outright: it ORs in `O_TRUNC` exactly when `append` is true, so
the mode the claim says preserves content is the one that erases it. -/
theorem Logx.file_truncation_flags_bug :
    ((Logx.File []).2.2 &&& Logx.O_TRUNC = 0) ∧
    ((Logx.File []).2.2 &&& Logx.O_APPEND = 0) ∧
    (Logx.contentAfterWrite (Logx.File []).2.2 "OLD DATA." "x" = "xLD DATA.") ∧
    ((Logx.File [some Logx.AppendOpt]).2.2 &&& Logx.O_APPEND ≠ 0) ∧
    (Logx.contentAfterWrite (Logx.File [some Logx.AppendOpt]).2.2
      "OLD DATA." "x" = "OLD DATA.x") ∧
    (Logx.NewFileOptionsFlags false &&& Logx.O_TRUNC = 0) ∧
    (Logx.NewFileOptionsFlags true &&& Logx.O_TRUNC ≠ 0) ∧
    (Logx.contentAfterWrite (Logx.NewFileOptionsFlags true) "OLD DATA." "x" = "x") := by
  decide

theorem Logx.writer_foldl_l_of_no_level (opts : List (Option Logx.GoOpt))
    (acc : Logx.WAcc) (h : ∀ x ∈ opts, Logx.isLevelOpt x = false) :
    (opts.foldl Logx.writerStep acc).l = acc.l := by
  induction opts generalizing acc with
  | nil => rfl
  | cons o os ih =>
    have h0 := h o (List.mem_cons_self o os)
    have hrest : ∀ x ∈ os, Logx.isLevelOpt x = false :=
      fun x hx => h x (List.mem_cons_of_mem o hx)
    rw [List.foldl_cons, ih _ hrest]
    cases o with
    | none => rfl
    | some g =>
      cases g <;>
        simp [Logx.writerStep, Logx.optSetting, Logx.setLevel, Logx.setFlags,
          Logx.setPrint, Logx.setAppend, Logx.setPfx, Logx.isLevelOpt] at h0 ⊢

theorem Logx.writer_foldl_k_of_no_print (opts : List (Option Logx.GoOpt))
    (acc : Logx.WAcc) (h : ∀ x ∈ opts, Logx.isPrintOpt x = false) :
    (opts.foldl Logx.writerStep acc).k = acc.k := by
  induction opts generalizing acc with
  | nil => rfl
  | cons o os ih =>
    have h0 := h o (List.mem_cons_self o os)
    have hrest : ∀ x ∈ os, Logx.isPrintOpt x = false :=
      fun x hx => h x (List.mem_cons_of_mem o hx)
    rw [List.foldl_cons, ih _ hrest]
    cases o with
    | none => rfl
    | some g =>
      cases g <;>
        simp [Logx.writerStep, Logx.optSetting, Logx.setLevel, Logx.setFlags,
          Logx.setPrint, Logx.setAppend, Logx.setPfx, Logx.isPrintOpt] at h0 ⊢

/-- C10 counterexample: the claim says a print-level option carrying the
invalid sentinel yields print level Info, but constructing via
`Writer(w, PrintLevel(invalidLevel))` yields a print level different from
Info (it is Trace: the failed `o[i].(Level)` assertion produces 0, which is
not the sentinel, so the Info default is never substituted). -/
theorem Logx.construction_sentinel_print_refuted :
    (Logx.Writer [some (Logx.PrintLevel Logx.invalidLevel)]).p ≠ Logx.Info ∧
    (Logx.Writer [some (Logx.PrintLevel Logx.invalidLevel)]).p = Logx.Trace := by
  decide

/-- C10 as amended: after construction via `Writer`, `Console`, or `File`,
threshold and print level never equal the invalid sentinel, for every option
list; a missing or sentinel-valued level option yields threshold Warning; a
missing print-level option yields Info, while a supplied print-level option
— the sentinel-valued one included — yields Trace (the failed type
assertion's zero value), never the sentinel. -/
theorem Logx.construction_levels_valid (opts : List (Option Logx.GoOpt)) :
    (Logx.Writer opts).l ≠ Logx.invalidLevel ∧
    (Logx.Writer opts).p ≠ Logx.invalidLevel ∧
    (Logx.Console opts).l ≠ Logx.invalidLevel ∧
    (Logx.Console opts).p ≠ Logx.invalidLevel ∧
    (Logx.File opts).1.l ≠ Logx.invalidLevel ∧
    (Logx.File opts).1.p ≠ Logx.invalidLevel ∧
    ((∀ x ∈ opts, Logx.isLevelOpt x = false) → (Logx.Writer opts).l = Logx.Warning) ∧
    ((∀ x ∈ opts, Logx.isPrintOpt x = false) → (Logx.Writer opts).p = Logx.Info) ∧
    (Logx.Writer (opts ++ [some (Logx.GoOpt.level Logx.invalidLevel)])).l
      = Logx.Warning ∧
    (Logx.Writer (opts ++ [some (Logx.PrintLevel Logx.invalidLevel)])).p
      = Logx.Trace := by
  refine ⟨?_, ?_, ?_, ?_, ?_, ?_, ?_, ?_, ?_, ?_⟩
  · show (if _ = Logx.invalidLevel then Logx.Warning else _) ≠ Logx.invalidLevel
    split
    · decide
    · assumption
  · show (if _ = Logx.invalidLevel then Logx.Info else _) ≠ Logx.invalidLevel
    split
    · decide
    · assumption
  · show (if _ = Logx.invalidLevel then Logx.Warning else _) ≠ Logx.invalidLevel
    split
    · decide
    · assumption
  · show (if _ = Logx.invalidLevel then Logx.Info else _) ≠ Logx.invalidLevel
    split
    · decide
    · assumption
  · show (if _ = Logx.invalidLevel then Logx.Warning else _) ≠ Logx.invalidLevel
    split
    · decide
    · assumption
  · show (if _ = Logx.invalidLevel then Logx.Info else _) ≠ Logx.invalidLevel
    split
    · decide
    · assumption
  · intro h
    have hl := Logx.writer_foldl_l_of_no_level opts
      { f := -1, p := "", l := Logx.invalidLevel, k := Logx.invalidLevel } h
    simp [Logx.Writer, hl]
  · intro h
    have hk := Logx.writer_foldl_k_of_no_print opts
      { f := -1, p := "", l := Logx.invalidLevel, k := Logx.invalidLevel } h
    simp [Logx.Writer, hk]
  · simp [Logx.Writer, List.foldl_append, Logx.writerStep, Logx.optSetting,
      Logx.setLevel, Logx.setFlags, Logx.setPrint, Logx.setAppend, Logx.setPfx,
      Logx.assertLevel, Logx.invalidLevel, Logx.Warning]
  · simp [Logx.Writer, List.foldl_append, Logx.writerStep, Logx.optSetting,
      Logx.setLevel, Logx.setFlags, Logx.setPrint, Logx.setAppend, Logx.setPfx,
      Logx.assertLevel, Logx.PrintLevel, Logx.invalidLevel, Logx.Trace]

/-- Witness for C10 as amended: a list with only a flags option leaves
threshold Warning and print level Info, neither the sentinel. -/
theorem Logx.construction_levels_valid_witness :
    (Logx.Writer [some (Logx.GoOpt.flags 5)]).l = Logx.Warning ∧
    (Logx.Writer [some (Logx.GoOpt.flags 5)]).p = Logx.Info ∧
    (Logx.Writer [some (Logx.GoOpt.flags 5)]).l ≠ Logx.invalidLevel :=
  ⟨(Logx.construction_levels_valid [some (Logx.GoOpt.flags 5)]).2.2.2.2.2.2.1
      (by decide),
   (Logx.construction_levels_valid [some (Logx.GoOpt.flags 5)]).2.2.2.2.2.2.2.1
      (by decide),
   (Logx.construction_levels_valid [some (Logx.GoOpt.flags 5)]).1⟩

theorem Logx.decDigitsGo_lt (fuel n : Nat) (h : n < 10) :
    Logx.decDigitsGo fuel n = [Nat.digitChar n] := by
  cases fuel with
  | zero => rfl
  | succ fuel => simp [Logx.decDigitsGo, h]

theorem Logx.decDigitsGo_invariant (n : Nat) : ∀ f1 f2 : Nat, n ≤ f1 → n ≤ f2 →
    Logx.decDigitsGo f1 n = Logx.decDigitsGo f2 n := by
  induction n using Nat.strong_induction_on with
  | _ n ih =>
    intro f1 f2 h1 h2
    by_cases hlt : n < 10
    · rw [Logx.decDigitsGo_lt f1 n hlt, Logx.decDigitsGo_lt f2 n hlt]
    · have hge : 10 ≤ n := by omega
      cases f1 with
      | zero => omega
      | succ a =>
        cases f2 with
        | zero => omega
        | succ b =>
          have hdiv : n / 10 < n := Nat.div_lt_self (by omega) (by omega)
          simp only [Logx.decDigitsGo, if_neg hlt]
          rw [ih (n / 10) hdiv a b (by omega) (by omega)]

theorem Logx.decDigits_lt (n : Nat) (h : n < 10) :
    Logx.decDigits n = [Nat.digitChar n] :=
  Logx.decDigitsGo_lt n n h

theorem Logx.decDigits_ge (n : Nat) (h : 10 ≤ n) :
    Logx.decDigits n = Logx.decDigits (n / 10) ++ [Nat.digitChar (n % 10)] := by
  obtain ⟨m, rfl⟩ : ∃ m, n = m + 1 := ⟨n - 1, by omega⟩
  show Logx.decDigitsGo (m + 1) (m + 1) = _
  simp only [Logx.decDigitsGo, if_neg (by omega : ¬ m + 1 < 10)]
  rw [Logx.decDigitsGo_invariant ((m + 1) / 10) m ((m + 1) / 10)
    (by have := Nat.div_lt_self (by omega : 0 < m + 1) (by omega : 1 < 10); omega)
    (Nat.le_refl _)]
  rfl

theorem Logx.itoaGo_eq_padZero : ∀ fuel i : Nat, ∀ w : Int, i + w.toNat ≤ fuel →
    Logx.itoaGo fuel i w = Logx.padZeroL w.toNat i := by
  intro fuel
  induction fuel with
  | zero =>
    intro i w h
    have hi : i = 0 := by omega
    have hw : w.toNat = 0 := by omega
    subst hi
    rw [hw]
    simp [Logx.itoaGo, Logx.padZeroL, Logx.decDigits_lt 0 (by omega)]
  | succ fuel ih =>
    intro i w h
    by_cases hc : 10 ≤ i ∨ 1 < w
    · have hbound : i / 10 + (w - 1).toNat ≤ fuel := by
        rcases hc with hi10 | hw1
        · have : i / 10 < i := Nat.div_lt_self (by omega) (by omega)
          omega
        · have : i / 10 ≤ i := Nat.div_le_self i 10
          omega
      simp only [Logx.itoaGo, if_pos hc]
      rw [ih (i / 10) (w - 1) hbound]
      by_cases hi10 : 10 ≤ i
      · rw [Logx.padZeroL, Logx.padZeroL, Logx.decDigits_ge i hi10,
          List.length_append]
        have hcount : (w - 1).toNat - (Logx.decDigits (i / 10)).length
            = w.toNat - ((Logx.decDigits (i / 10)).length
              + [Nat.digitChar (i % 10)].length) := by
          simp only [List.length_singleton]
          omega
        rw [hcount, List.append_assoc]
      · have hw1 : 1 < w := by tauto
        have hi0 : i / 10 = 0 := by omega
        have himod : i % 10 = i := Nat.mod_eq_of_lt (by omega)
        rw [hi0, himod, Logx.padZeroL, Logx.padZeroL, Logx.decDigits_lt 0 (by omega),
          Logx.decDigits_lt i (by omega)]
        simp only [List.length_singleton]
        have h0 : Nat.digitChar 0 = '0' := by decide
        rw [h0, List.append_assoc]
        have hrep : List.replicate ((w - 1).toNat - 1) '0' ++ ('0' :: [Nat.digitChar i])
            = List.replicate ((w - 1).toNat - 1 + 1) '0' ++ [Nat.digitChar i] := by
          rw [List.replicate_succ']
          simp
        rw [show ['0'] ++ [Nat.digitChar i] = '0' :: [Nat.digitChar i] from rfl, hrep]
        have hone : (w - 1).toNat - 1 + 1 = w.toNat - 1 := by omega
        rw [hone]
    · push_neg at hc
      obtain ⟨hi, hw⟩ := hc
      simp only [Logx.itoaGo, if_neg (show ¬(10 ≤ i ∨ 1 < w) by omega)]
      rw [Logx.padZeroL, Logx.decDigits_lt i (by omega)]
      simp only [List.length_singleton]
      have hz : w.toNat - 1 = 0 := by omega
      rw [hz]
      rfl

theorem Logx.itoaL_eq_padZero (i : Nat) (w : Int) :
    Logx.itoaL i w = Logx.padZeroL w.toNat i :=
  Logx.itoaGo_eq_padZero (i + w.toNat) i w (Nat.le_refl _)

theorem Logx.itoaStr_eq_padZero (i : Nat) (w : Int) :
    Logx.itoaStr i w = Logx.padZero w.toNat i :=
  congrArg String.mk (Logx.itoaL_eq_padZero i w)

theorem Logx.lor_eq_zero_parts {m n : Nat} (h : m ||| n = 0) : m = 0 ∧ n = 0 := by
  constructor
  · by_contra hm
    obtain ⟨i, hi⟩ := Nat.ne_zero_implies_bit_true hm
    have h2 := congrArg (fun x => Nat.testBit x i) h
    simp [Nat.testBit_or, hi] at h2
  · by_contra hn
    obtain ⟨i, hi⟩ := Nat.ne_zero_implies_bit_true hn
    have h2 := congrArg (fun x => Nat.testBit x i) h
    simp [Nat.testBit_or, hi] at h2

theorem Logx.land_lor_split {f a b : Nat} (h : f &&& (a ||| b) = 0) :
    f &&& a = 0 ∧ f &&& b = 0 := by
  rw [Nat.and_or_distrib_left] at h
  exact Logx.lor_eq_zero_parts h

theorem Logx.land_lor_join {f a b : Nat} (h1 : f &&& a = 0) (h2 : f &&& b = 0) :
    f &&& (a ||| b) = 0 := by
  rw [Nat.and_or_distrib_left, h1, h2]
  rfl

theorem Logx.outHeader_eq_fields (f : Nat) (tLoc tUtc : Logx.DateTime) :
    Logx.outHeader f tLoc tUtc
      = Logx.dateField f (if f &&& Logx.FlagTimeUTC ≠ 0 then tUtc else tLoc)
        ++ Logx.timeField f (if f &&& Logx.FlagTimeUTC ≠ 0 then tUtc else tLoc) := by
  simp only [Logx.outHeader, Logx.dateField, Logx.timeField]
  by_cases hO : f &&& (Logx.FlagDate ||| Logx.FlagTimeUTC ||| Logx.FlagTime
      ||| Logx.FlagMicroseconds) = 0
  · obtain ⟨h3, hm⟩ := Logx.land_lor_split hO
    obtain ⟨h2, ht⟩ := Logx.land_lor_split h3
    obtain ⟨hd, hu⟩ := Logx.land_lor_split h2
    have htm : f &&& (Logx.FlagTime ||| Logx.FlagMicroseconds) = 0 :=
      Logx.land_lor_join ht hm
    simp [hO, hd, htm]
  · simp [hO, Logx.itoaStr_eq_padZero]

theorem Logx.outFilePart_eq_field (f : Nat) (caller : Option (String × Nat)) :
    Logx.outFilePart f caller = Logx.amendedFileField f caller := by
  simp only [Logx.outFilePart, Logx.amendedFileField]
  by_cases hF : f &&& (Logx.FlagFileLong ||| Logx.FlagFileShort) = 0
  · simp [hF]
  · rw [if_pos hF, if_pos hF, Logx.itoaStr_eq_padZero]
    rfl

/-- C3 counterexample: the claim's layout is refuted at a concrete input.
With only the short-file flag set, caller `b.go` line 7 and message `"x"`,
the formatter emits `"b.go:7 x\n"` — the line number is followed by a space
— while the claimed layout `file:line:` yields `"b.go:7: x\n"`; the two
differ. In addition, a message that already ends in two newlines is emitted
unchanged (`"x\n\n"`), so the emitted line is not always terminated by
exactly one `'\n'`; the appended-only-if-missing caveat is what the code
implements. -/
theorem Logx.output_line_claim_refuted :
    Logx.loggerOutput 16 "" (some ("b.go", 7))
        ⟨2024, 1, 2, 3, 4, 5, 6⟩ ⟨2024, 1, 2, 3, 4, 5, 6⟩ "x" = "b.go:7 x\n" ∧
    Logx.claimedOutputLine 16 "" (some ("b.go", 7))
        ⟨2024, 1, 2, 3, 4, 5, 6⟩ ⟨2024, 1, 2, 3, 4, 5, 6⟩ "x" = "b.go:7: x\n" ∧
    Logx.loggerOutput 16 "" (some ("b.go", 7))
        ⟨2024, 1, 2, 3, 4, 5, 6⟩ ⟨2024, 1, 2, 3, 4, 5, 6⟩ "x"
      ≠ Logx.claimedOutputLine 16 "" (some ("b.go", 7))
        ⟨2024, 1, 2, 3, 4, 5, 6⟩ ⟨2024, 1, 2, 3, 4, 5, 6⟩ "x" ∧
    Logx.loggerOutput 0 "" none
        ⟨2024, 1, 2, 3, 4, 5, 6⟩ ⟨2024, 1, 2, 3, 4, 5, 6⟩ "x\n\n" = "x\n\n" := by
  decide

/-- C3 as amended: for every flag set, prefix, caller, clock reading and
message, the formatter emits the enabled fields in the fixed order — date
`YYYY/MM/DD`, time `HH:MM:SS` with optional `.ssssss` microseconds,
file and line as `file:line` followed by a space (not a colon), prefix,
then the gated message (which carries the `[LEVEL]: ` tag when it comes from
`stream.Log`) — with a final `'\n'` appended exactly when the formatted
message is empty or does not already end in one. -/
theorem Logx.output_line_amended (f : Nat) (pfx : String)
    (caller : Option (String × Nat)) (tLoc tUtc : Logx.DateTime) (s : String) :
    Logx.loggerOutput f pfx caller tLoc tUtc s
      = Logx.amendedOutputLine f pfx caller tLoc tUtc s := by
  simp only [Logx.loggerOutput, Logx.amendedOutputLine, Logx.pfxField,
    Logx.newlineIfMissing]
  rw [Logx.outHeader_eq_fields, Logx.outFilePart_eq_field]
